import Mathlib

/-!
# Verification of `src/network_report.py`

A shallow embedding of the network-report generator: a one-shot batch
transform that flattens a `locations → devices` JSON document, computes
aggregates (status filters, uptime filter, type histogram, VLAN set, switch
port utilization, per-site tables) and renders a fixed-width text report.

Python values parsed from JSON are modelled by `JVal`; fallible Python
operations (`int(...)` coercion, iteration over non-iterables, `d[k]`
indexing, string `+` on non-strings) return `Option`, where `none` models the
exception aborting the run.  Percentages, computed in Python with float
division, are modelled exactly over `ℚ`.
-/

set_option maxHeartbeats 1600000

/-- JSON-like Python values as produced by `json.loads`.  Numbers in the
document are modelled as integers (floats never occur in the fields the
program reads; the percentages it computes are modelled by `ℚ` separately). -/
inductive JVal where
  | null
  | bool (b : Bool)
  | int (n : Int)
  | str (s : String)
  | arr (xs : List JVal)
  | obj (fs : List (String × JVal))

mutual

/-- Structural equality on values, modelling Python `==` as used for dict
keys here.  (Python's cross-type numeric equalities such as `True == 1` are
not modelled; no aggregate in this program depends on them.) -/
def JVal.beq : JVal → JVal → Bool
  | .null, .null => true
  | .bool a, .bool b => a == b
  | .int a, .int b => a == b
  | .str a, .str b => a == b
  | .arr xs, .arr ys => JVal.beqList xs ys
  | .obj fs, .obj gs => JVal.beqObj fs gs
  | _, _ => false

/-- Elementwise equality of value lists. -/
def JVal.beqList : List JVal → List JVal → Bool
  | [], [] => true
  | x :: xs, y :: ys => JVal.beq x y && JVal.beqList xs ys
  | _, _ => false

/-- Elementwise equality of key/value field lists. -/
def JVal.beqObj : List (String × JVal) → List (String × JVal) → Bool
  | [], [] => true
  | (k, v) :: fs, (l, w) :: gs => k == l && JVal.beq v w && JVal.beqObj fs gs
  | _, _ => false

end

/-- Decimal digits accumulated left to right; `none` at the first
non-digit. -/
def parseDigits : List Char → Nat → Option Nat
  | [], acc => some acc
  | c :: rest, acc =>
      if c.isDigit then parseDigits rest (acc * 10 + (c.toNat - 48)) else none

/-- Python `int(s)` on a string: an optional sign followed by at least one
decimal digit; anything else raises `ValueError` (`none`).  (CPython also
strips surrounding whitespace and allows `_` digit separators; no statement
below uses such strings.) -/
def pyIntOfStr (s : String) : Option Int :=
  match s.data with
  | [] => none
  | c :: rest =>
      if c = Char.ofNat 45 then
        if rest.isEmpty then none else (parseDigits rest 0).map fun n => -(n : Int)
      else if c = Char.ofNat 43 then
        if rest.isEmpty then none else (parseDigits rest 0).map fun n => (n : Int)
      else (parseDigits (c :: rest) 0).map fun n => (n : Int)

/-- Python's `int(v)` coercion: booleans become 0/1, integers pass through,
strings are parsed as decimal integers (`none` models the `ValueError` on an
unparsable string), and `None`/lists/dicts raise `TypeError` (`none`). -/
def pyInt : JVal → Option Int
  | .bool b => some (if b then 1 else 0)
  | .int n => some n
  | .str s => pyIntOfStr s
  | _ => none

/-- Python truthiness: `None`, `False`, `0`, `""`, `[]` and `\x7b\x7d` are
falsy. -/
def isFalsy : JVal → Bool
  | .null => true
  | .bool b => !b
  | .int n => n == 0
  | .str s => s.isEmpty
  | .arr xs => xs.isEmpty
  | .obj fs => fs.isEmpty

/-- Python iteration `for v in x`: lists yield their elements, strings yield
their characters as 1-character strings, dicts yield their keys; every other
value raises `TypeError` (`none`). -/
def pyIter : JVal → Option (List JVal)
  | .arr xs => some xs
  | .str s => some (s.data.map fun c => .str (String.mk [c]))
  | .obj fs => some (fs.map fun f => JVal.str f.1)
  | _ => none

/-- A Python dict with string keys, as an insertion-ordered association list.
Dicts produced by `json.loads` have unique keys; lookups take the first
match. -/
abbrev Dict := List (String × JVal)

/-- Key lookup, `none` when the key is absent. -/
def dlookup (d : Dict) (k : String) : Option JVal :=
  match d with
  | [] => none
  | (k', v) :: rest => if k' = k then some v else dlookup rest k

/-- Python's `d.get(k, default)`. -/
def dget (d : Dict) (k : String) (dflt : JVal) : JVal :=
  (dlookup d k).getD dflt

/-- Python dict assignment `d[k] = v`: replaces the value in place when the
key is present, otherwise appends the binding at the end. -/
def setKey (d : Dict) (k : String) (v : JVal) : Dict :=
  match d with
  | [] => [(k, v)]
  | (k', v') :: rest =>
      if k' = k then (k, v) :: rest else (k', v') :: setKey rest k v

/-- The dict constructor/attribute views: only an actual dict succeeds. -/
def asObj : JVal → Option Dict
  | .obj fs => some fs
  | _ => none

/-- One enriched device record (`network_report.py` lines 18-22): a copy of
the source device with `_site`, `_city`, `_contact` set from the enclosing
location. -/
def enrich (site city contact : JVal) (dev : Dict) : Dict :=
  setKey (setKey (setKey dev "_site" site) "_city" city) "_contact" contact

/-- The inner loop of `load_devices` (lines 17-22) over one location's
`devices` value: each element must be a dict (otherwise `dict(dev)` raises),
and is copied and enriched. -/
def loadDevs (site city contact : JVal) : List JVal → Option (List Dict)
  | [] => some []
  | dv :: rest => do
      let dev ← asObj dv
      let tail ← loadDevs site city contact rest
      some (enrich site city contact dev :: tail)

/-- The outer loop of `load_devices` (lines 13-22): each location must be a
dict (its `.get` calls raise otherwise); `loc.get("devices", [])` is iterated
(raising on a non-iterable value). -/
def loadLocs : List JVal → Option (List Dict)
  | [] => some []
  | lv :: rest => do
      let loc ← asObj lv
      let devs ← pyIter (dget loc "devices" (.arr []))
      let here ← loadDevs (dget loc "site" .null) (dget loc "city" .null)
        (dget loc "contact" .null) devs
      let tail ← loadLocs rest
      some (here ++ tail)

/-- `load_devices` (lines 11-23): flatten `data.get("locations", [])` into
one list of enriched device dicts, in document order. -/
def load_devices (data : Dict) : Option (List Dict) := do
  let locs ← pyIter (dget data "locations" (.arr []))
  loadLocs locs

/-- `d.get(k) == s` for a nonempty string literal `s` (lines 41-42, 48, 58):
in Python a non-string value never equals a nonempty string constant. -/
def pyEqStr (v : JVal) (s : String) : Bool :=
  match v with
  | .str t => t == s
  | _ => false

/-- Line 41: the devices with `status == "offline"`. -/
def offline (devices : List Dict) : List Dict :=
  devices.filter fun d => pyEqStr (dget d "status" .null) "offline"

/-- Line 42: the devices with `status == "warning"`. -/
def warning (devices : List Dict) : List Dict :=
  devices.filter fun d => pyEqStr (dget d "status" .null) "warning"

/-- Line 5. -/
def LOW_UPTIME_DAYS : Int := 30

/-- `int(d.get("uptime_days", 0))`. -/
def uptimeInt (d : Dict) : Option Int :=
  pyInt (dget d "uptime_days" (.int 0))

/-- Line 43: `[d for d in devices if int(d.get("uptime_days", 0)) < 30]`.
`none` models the `ValueError`/`TypeError` raised by `int(...)` on a present
but non-coercible `uptime_days` value, which aborts the whole run. -/
def low_uptime : List Dict → Option (List Dict)
  | [] => some []
  | d :: rest => do
      let u ← uptimeInt d
      let tail ← low_uptime rest
      some (if u < LOW_UPTIME_DAYS then d :: tail else tail)

/-- Python hashability of JSON values: scalars (`None`, booleans, integers,
strings) are hashable; lists and dicts are not — using one as a dict key
raises `TypeError` at the hashing site. -/
def isHashable : JVal → Bool
  | .arr _ => false
  | .obj _ => false
  | _ => true

/-- The in-place update of a counter dict at an already-hashed key. -/
def bumpKey (h : List (JVal × Nat)) (t : JVal) : List (JVal × Nat) :=
  match h with
  | [] => [(t, 1)]
  | (k, c) :: rest =>
      if JVal.beq k t then (k, c + 1) :: rest else (k, c) :: bumpKey rest t

/-- The dict update `h[t] = h.get(t, 0) + 1` with an arbitrary-value key
(line 49); `none` models the `TypeError` Python raises when the key is an
unhashable (list/dict) value. -/
def bumpJ (h : List (JVal × Nat)) (t : JVal) : Option (List (JVal × Nat)) :=
  if isHashable t then some (bumpKey h t) else none

/-- The loop of lines 47-49, with its accumulated histogram. -/
def byTypeGo : List Dict → List (JVal × Nat) → Option (List (JVal × Nat))
  | [], acc => some acc
  | d :: rest, acc => do
      let acc2 ← bumpJ acc (dget d "type" (.str "unknown"))
      byTypeGo rest acc2

/-- Lines 46-49: the per-type histogram, keyed by `d.get("type", "unknown")`;
`none` models the `TypeError` on an unhashable `type` value. -/
def by_type (devices : List Dict) : Option (List (JVal × Nat)) :=
  byTypeGo devices []

/-- The `vlans` contribution of one device (line 54):
`d.get("vlans", []) or []`, iterated, each item coerced with `int(...)`. -/
def vlanList (d : Dict) : Option (List Int) := do
  let raw := dget d "vlans" (.arr [])
  let raw := if isFalsy raw then JVal.arr [] else raw
  let items ← pyIter raw
  items.mapM pyInt

/-- `set.add`: Python's `set` of integers is modelled as a duplicate-free
list in insertion order (the report only ever consumes `sorted(vlan_set)`,
which does not depend on that order). -/
def insertNew (s : List Int) (v : Int) : List Int :=
  if v ∈ s then s else s ++ [v]

/-- The fold of lines 52-55 with its accumulated set. -/
def vlanGo (acc : List Int) : List Dict → Option (List Int)
  | [] => some acc
  | d :: rest => do
      let vs ← vlanList d
      vlanGo (vs.foldl insertNew acc) rest

/-- Lines 52-55: the set of all VLAN ids over all devices. -/
def vlan_set (devices : List Dict) : Option (List Int) :=
  vlanGo [] devices

/-- Whether a value is a dict (`isinstance(v, dict)`). -/
def isObj : JVal → Bool
  | .obj _ => true
  | _ => false

/-- Line 58: the switch devices — `type == "switch"` and `ports` a dict. -/
def switch_devices (devices : List Dict) : List Dict :=
  devices.filter fun d =>
    pyEqStr (dget d "type" .null) "switch" && isObj (dget d "ports" .null)

/-- `int(d["ports"].get("used", 0))`; `none` models the exception when
`ports` is absent/non-dict or the value is non-coercible. -/
def usedOf (d : Dict) : Option Int := do
  let p ← asObj (dget d "ports" .null)
  pyInt (dget p "used" (.int 0))

/-- `int(d["ports"].get("total", 0))`. -/
def totOf (d : Dict) : Option Int := do
  let p ← asObj (dget d "ports" .null)
  pyInt (dget p "total" (.int 0))

/-- Line 59. -/
def sumUsed (devs : List Dict) : Option Int :=
  (devs.mapM usedOf).map List.sum

/-- Line 60. -/
def sumTot (devs : List Dict) : Option Int :=
  (devs.mapM totOf).map List.sum

/-- Line 6 (`80.0`). -/
def HIGH_PORT_UTIL_PCT : ℚ := 80

/-- Lines 8-9: `pct(used, total)` — exactly `0.0` when `total == 0`, else
`used / total * 100.0`.  Python's float division is modelled exactly in `ℚ`. -/
def pct (used total : Int) : ℚ :=
  if total = 0 then 0 else ((used : ℚ) / (total : ℚ)) * 100

/-- Lines 80-86: collect `(d, p)` for each switch device whose individual
percentage `p` strictly exceeds the 80.0 threshold. -/
def highGo : List Dict → Option (List (Dict × ℚ))
  | [] => some []
  | d :: rest => do
      let u ← usedOf d
      let t ← totOf d
      let tail ← highGo rest
      some (if HIGH_PORT_UTIL_PCT < pct u t then (d, pct u t) :: tail else tail)

/-- Lines 80-86 applied to the switch devices of the full list. -/
def high_port_switches (devices : List Dict) : Option (List (Dict × ℚ)) :=
  highGo (switch_devices devices)

/-- The comparison used to display the list (line 164):
`sorted(..., key=lambda x: x[1], reverse=True)` keeps `a` before `b`
exactly when `b`'s percentage is at most `a`'s. -/
def highLe (a b : Dict × ℚ) : Bool :=
  decide (b.2 ≤ a.2)

/-- The per-site port accumulator `\x7b"switches": 0, "used": 0, "total": 0\x7d`
of line 75 (its keys are fixed, so a structure is faithful). -/
structure PortAcc where
  switches : Int
  used : Int
  total : Int

/-- The in-place per-site port update at an already-hashed site key. -/
def updEntryKey (acc : List (JVal × PortAcc)) (site : JVal) (u t : Int) :
    List (JVal × PortAcc) :=
  match acc with
  | [] => [(site, ⟨1, u, t⟩)]
  | (k, v) :: rest =>
      if JVal.beq k site then
        (k, ⟨v.switches + 1, v.used + u, v.total + t⟩) :: rest
      else (k, v) :: updEntryKey rest site u t

/-- Lines 75-78: `setdefault` plus the three `+=` updates for one device;
`none` models the `TypeError` Python raises at `setdefault` when the site
key is an unhashable (list/dict) value. -/
def updEntry (acc : List (JVal × PortAcc)) (site : JVal) (u t : Int) :
    Option (List (JVal × PortAcc)) :=
  if isHashable site then some (updEntryKey acc site u t) else none

/-- The loop of lines 72-78; `d["_site"]` raises (`none`) when absent. -/
def sitePortGo : List Dict → List (JVal × PortAcc) → Option (List (JVal × PortAcc))
  | [], acc => some acc
  | d :: rest, acc => do
      let site ← dlookup d "_site"
      let u ← usedOf d
      let t ← totOf d
      let acc2 ← updEntry acc site u t
      sitePortGo rest acc2

/-- Lines 72-78: per-site port usage over the switch devices. -/
def site_port (devices : List Dict) : Option (List (JVal × PortAcc)) :=
  sitePortGo (switch_devices devices) []

/-- The in-place update of an integer-counter dict at an already-hashed
key. -/
def bumpCntKey (h : List (JVal × Int)) (t : JVal) : List (JVal × Int) :=
  match h with
  | [] => [(t, 1)]
  | (k, c) :: rest =>
      if JVal.beq k t then (k, c + 1) :: rest else (k, c) :: bumpCntKey rest t

/-- The dict update `h[t] = h.get(t, 0) + 1` with integer counts (line 69);
`none` models the `TypeError` Python raises on an unhashable (list/dict)
key. -/
def bumpCnt (h : List (JVal × Int)) (t : JVal) : Option (List (JVal × Int)) :=
  if isHashable t then some (bumpCntKey h t) else none

/-- Line 67: the initial per-site counter dict. -/
def statsInit : List (JVal × Int) :=
  [(.str "total", 0), (.str "online", 0), (.str "offline", 0), (.str "warning", 0)]

/-- The per-site entry update at an already-hashed site key: `["total"] += 1`
(line 68), then the open-keyed status counter bump (line 69, hashing the
status value — `none` when it is unhashable). -/
def updStatsKey : List (JVal × List (JVal × Int)) → JVal → JVal →
    Option (List (JVal × List (JVal × Int)))
  | [], site, status => do
      let v1 ← bumpCnt statsInit (.str "total")
      let v2 ← bumpCnt v1 status
      some [(site, v2)]
  | (k, v) :: rest, site, status =>
      if JVal.beq k site then do
        let v1 ← bumpCnt v (.str "total")
        let v2 ← bumpCnt v1 status
        some ((k, v2) :: rest)
      else (updStatsKey rest site status).map fun r => (k, v) :: r

/-- Lines 67-69: `setdefault` (which hashes the site key — `none` models the
`TypeError` on an unhashable site value), then the two counter updates. -/
def updStats (acc : List (JVal × List (JVal × Int))) (site status : JVal) :
    Option (List (JVal × List (JVal × Int))) :=
  if isHashable site then updStatsKey acc site status else none

/-- The loop of lines 64-69; `d["_site"]` raises (`none`) when absent. -/
def siteStatsGo : List Dict → List (JVal × List (JVal × Int)) →
    Option (List (JVal × List (JVal × Int)))
  | [], acc => some acc
  | d :: rest, acc => do
      let site ← dlookup d "_site"
      let acc2 ← updStats acc site (dget d "status" (.str "online"))
      siteStatsGo rest acc2

/-- Lines 64-69: per-site device/status counts. -/
def site_stats (devices : List Dict) : Option (List (JVal × List (JVal × Int))) :=
  siteStatsGo devices []

/-- Stable insertion: `x` is placed after every earlier element `y` with
`le y x = true`. -/
def stableInsert (le : α → α → Bool) (x : α) : List α → List α
  | [] => [x]
  | y :: ys => if le y x then y :: stableInsert le x ys else x :: y :: ys

/-- Python's built-in `sorted(...)`: a stable sort (here insertion sort,
processing the input left to right; stability and sortedness are proved
below). -/
def pySorted (le : α → α → Bool) (l : List α) : List α :=
  l.foldl (fun acc x => stableInsert le x acc) []

/-- Line 175: `sorted(vlan_set)`, ascending. -/
def vlans_sorted (devices : List Dict) : Option (List Int) :=
  (vlan_set devices).map fun s => pySorted (fun a b => decide (a ≤ b)) s

/-- Line 164: the high-utilization list as displayed — stably sorted,
descending by percentage. -/
def high_sorted (devices : List Dict) : Option (List (Dict × ℚ)) :=
  (high_port_switches devices).map fun l => pySorted highLe l

mutual

/-- Python `repr` on JSON values (`str` falls back to this for containers).
String quoting/escaping is simplified to plain single quotes; no statement
below evaluates `repr` of a string containing quotes. -/
def pyRepr : JVal → String
  | .null => "None"
  | .bool b => if b then "True" else "False"
  | .int n => toString n
  | .str s => String.singleton (Char.ofNat 39) ++ s ++ String.singleton (Char.ofNat 39)
  | .arr xs => "[" ++ pyReprList xs ++ "]"
  | .obj fs => String.singleton (Char.ofNat 123) ++ pyReprFields fs ++ String.singleton (Char.ofNat 125)

/-- Comma-joined reprs of list elements. -/
def pyReprList : List JVal → String
  | [] => ""
  | [x] => pyRepr x
  | x :: xs => pyRepr x ++ ", " ++ pyReprList xs

/-- Comma-joined `'key': value` reprs of dict fields. -/
def pyReprFields : List (String × JVal) → String
  | [] => ""
  | [(k, v)] => String.singleton (Char.ofNat 39) ++ k ++ String.singleton (Char.ofNat 39) ++ ": " ++ pyRepr v
  | (k, v) :: fs => String.singleton (Char.ofNat 39) ++ k ++ String.singleton (Char.ofNat 39) ++ ": " ++ pyRepr v ++ ", " ++ pyReprFields fs

end

/-- Python `str(v)`: identity on strings, `None`/`True`/`False`/digits for
scalars, `repr` for containers. -/
def pyStr : JVal → String
  | .str s => s
  | v => pyRepr v

/-- `s.ljust(w)` (also the `<` and default string alignment of a format
spec). -/
def ljust (s : String) (w : Nat) : String :=
  s ++ String.mk (List.replicate (w - s.length) (Char.ofNat 32))

/-- Right justification (`>` alignment, also the default for integers). -/
def rjust (s : String) (w : Nat) : String :=
  String.mk (List.replicate (w - s.length) (Char.ofNat 32)) ++ s

/-- `^w` centering: the extra space goes to the right, as in CPython. -/
def center (s : String) (w : Nat) : String :=
  let pad := w - s.length
  String.mk (List.replicate (pad / 2) (Char.ofNat 32)) ++ s ++
    String.mk (List.replicate (pad - pad / 2) (Char.ofNat 32))

/-- A format spec `{v:w}` with default alignment: strings left-justify,
booleans and integers format as integers and right-justify; other values
raise `TypeError` (`none`). -/
def fmtW (v : JVal) (w : Nat) : Option String :=
  match v with
  | .str s => some (ljust s w)
  | .int n => some (rjust (toString n) w)
  | .bool b => some (rjust (if b then "1" else "0") w)
  | _ => none

/-- A format spec `{v:>w}`: explicit right alignment. -/
def fmtWR (v : JVal) (w : Nat) : Option String :=
  match v with
  | .str s => some (rjust s w)
  | .int n => some (rjust (toString n) w)
  | .bool b => some (rjust (if b then "1" else "0") w)
  | _ => none

/-- Round `n / d` (with `d > 0`) to the nearest integer, ties to even —
the rounding CPython's fixed-point float formatting applies.  (Formatting a
float in fact rounds its binary double value; every value formatted in a
statement below is decimal-exact, where the two agree.) -/
def roundHalfEven (n : Int) (d : Nat) : Int :=
  let e := n / d
  let r := n % d
  if d < 2 * r.toNat then e + 1
  else if 2 * r.toNat < d then e
  else if e % 2 = 0 then e else e + 1

/-- Python `format(x, ".1f")` on an exact rational value. -/
def fmt1 (q : ℚ) : String :=
  let t := roundHalfEven (q.num * 10) q.den
  let sign := if t < 0 then "-" else ""
  sign ++ toString (t.natAbs / 10) ++ "." ++ toString (t.natAbs % 10)

/-- Python `format(x, ".0f")` on an exact rational value. -/
def fmt0 (q : ℚ) : String :=
  toString (roundHalfEven q.num q.den)

/-- `format_line` (lines 25-26): `"  ".join(str(c).ljust(w) ...)`. -/
def format_line (cols : List JVal) (widths : List Nat) : String :=
  String.intercalate "  " (List.zipWith (fun c w => ljust (pyStr c) w) cols widths)

/-- A run of `n` dashes. -/
def dashes (n : Nat) : String :=
  String.mk (List.replicate n (Char.ofNat 45))

/-- `"=" * 80`. -/
def eq80 : String :=
  String.mk (List.replicate 80 (Char.ofNat 61))

/-- Line 112. -/
def DEV_WIDTHS : List Nat := [16, 15, 13, 18, 10]

/-- One row of the 5-column device table (lines 115-122); `d["_site"]`
raises when absent, as does a non-coercible `uptime_days`. -/
def deviceRow (d : Dict) : Option String := do
  let site ← dlookup d "_site"
  let u ← uptimeInt d
  some (format_line [dget d "hostname" (.str ""), dget d "ip_address" (.str ""),
    dget d "type" (.str ""), site, .str (toString u ++ " d")] DEV_WIDTHS)

/-- `add_device_list` (lines 105-123): a titled 5-column table, or the
literal `"Inga."` placeholder when the list is empty. -/
def add_device_list (title : String) (devs : List Dict) : Option (List String) :=
  if devs.isEmpty then some [title, dashes 80, "Inga.", ""]
  else do
    let rows ← devs.mapM deviceRow
    some ([title, dashes 80,
      format_line [.str "Hostname", .str "IP", .str "Typ", .str "Site", .str "Uptime"] DEV_WIDTHS,
      format_line [.str (dashes 16), .str (dashes 15), .str (dashes 13),
        .str (dashes 18), .str (dashes 10)] DEV_WIDTHS] ++ rows ++ [""])

/-- One row of the low-uptime listing (line 134), with its pre-computed
integer uptime. -/
def lowRow (du : Dict × Int) : Option String := do
  let site ← dlookup du.1 "_site"
  let host ← fmtW (dget du.1 "hostname" (.str "")) 16
  let st ← fmtWR (dget du.1 "status" (.str "")) 7
  some (host ++ " " ++ rjust (toString du.2) 4 ++ " dagar  " ++ st ++ "  " ++ pyStr site)

/-- First-match lookup in an arbitrarily keyed dict. -/
def lookupBy (l : List (JVal × α)) (k : JVal) : Option α :=
  match l with
  | [] => none
  | (k', v) :: rest => if JVal.beq k' k then some v else lookupBy rest k

/-- String-key comparison for `sorted(dict.keys())`. -/
def strLe (a b : JVal) : Bool :=
  match a, b with
  | .str s, .str t => decide (s ≤ t)
  | _, _ => false

/-- Integer-key comparison for `sorted(dict.keys())`. -/
def intLe (a b : JVal) : Bool :=
  match a, b with
  | .int m, .int n => decide (m ≤ n)
  | _, _ => false

/-- Whether a value is a string. -/
def isStr : JVal → Bool
  | .str _ => true
  | _ => false

/-- Whether a value is an integer. -/
def isInt : JVal → Bool
  | .int _ => true
  | _ => false

/-- `sorted(keys)` over dict keys: lists of at most one element need no
comparison; homogeneous string or integer keys sort ascending; any other
mix raises `TypeError` (`none`), as Python's `<` does across types. -/
def pySortedKeys (ks : List JVal) : Option (List JVal) :=
  match ks with
  | [] => some []
  | [k] => some [k]
  | _ =>
    if ks.all isStr then some (pySorted strLe ks)
    else if ks.all isInt then some (pySorted intLe ks)
    else none

/-- One histogram row (line 144): `f"{t:15}: {by_type[t]:>3} st"`. -/
def histRow (bt : List (JVal × Nat)) (t : JVal) : Option String := do
  let c ← lookupBy bt t
  let ts ← fmtW t 15
  some (ts ++ ": " ++ rjust (toString c) 3 ++ " st")

/-- One per-site port row (lines 156-158). -/
def sitePortRow (sp : List (JVal × PortAcc)) (site : JVal) : Option String := do
  let v ← lookupBy sp site
  let s ← fmtW site 18
  some ("  " ++ s ++ "  switchar: " ++ rjust (toString v.switches) 2 ++ "  " ++
    rjust (toString v.used) 3 ++ "/" ++ ljust (toString v.total) 3 ++ "  " ++
    rjust (fmt1 (pct v.used v.total)) 5 ++ "%")

/-- One row of the displayed high-utilization listing (lines 165-167). -/
def highRowFn (dp : Dict × ℚ) : Option String := do
  let u ← usedOf dp.1
  let t ← totOf dp.1
  let site ← dlookup dp.1 "_site"
  let h ← fmtW (dget dp.1 "hostname" (.str "")) 16
  some (h ++ " " ++ rjust (toString u) 2 ++ "/" ++ ljust (toString t) 2 ++ "  " ++
    rjust (fmt1 dp.2) 5 ++ "%  " ++ pyStr site)

/-- The count read by `v.get(k, 0)` in line 185. -/
def getCnt (v : List (JVal × Int)) (k : String) : Int :=
  (lookupBy v (.str k)).getD 0

/-- One per-site status row (line 185). -/
def siteStatsRow (ss : List (JVal × List (JVal × Int))) (site : JVal) : Option String := do
  let v ← lookupBy ss site
  let tot ← lookupBy v (JVal.str "total")
  some (pyStr site ++ ": " ++ toString tot ++ " (online: " ++
    toString (getCnt v "online") ++ ", offline: " ++ toString (getCnt v "offline") ++
    ", warning: " ++ toString (getCnt v "warning") ++ ")")

/-- The per-site status section (lines 180-186): title, rule, one row per
site in key order, trailing blank — and nothing else, in particular no
placeholder when there are no sites. -/
def siteStatsBlock (ss : List (JVal × List (JVal × Int))) : Option (List String) := do
  let keys ← pySortedKeys (ss.map Prod.fst)
  let rows ← keys.mapM (siteStatsRow ss)
  some (["STATISTIK PER SITE", dashes 80] ++ rows ++ [""])

/-- Everything `main` computes before rendering (lines 35-86), in source
order; `none` models an exception in any of the aggregation passes. -/
structure Agg where
  devices : List Dict
  company : JVal
  last_updated : JVal
  offlineL : List Dict
  warningL : List Dict
  lowL : List Dict
  bt : List (JVal × Nat)
  vset : List Int
  swDevs : List Dict
  total_used : Int
  total_ports : Int
  ss : List (JVal × List (JVal × Int))
  sp : List (JVal × PortAcc)
  hps : List (Dict × ℚ)

/-- Lines 35-86: run every aggregation pass of `main`. -/
def aggregates (data : Dict) : Option Agg := do
  let devices ← load_devices data
  let lowL ← low_uptime devices
  let bt ← by_type devices
  let vset ← vlan_set devices
  let swDevs := switch_devices devices
  let total_used ← sumUsed swDevs
  let total_ports ← sumTot swDevs
  let ss ← site_stats devices
  let sp ← site_port devices
  let hps ← highGo swDevs
  some ⟨devices, dget data "company" (.str "Unknown"), dget data "last_updated" (.str ""),
    offline devices, warning devices, lowL, bt, vset, swDevs,
    total_used, total_ports, ss, sp, hps⟩

/-- Lines 90-102: report header (the `+ company` concatenation raises unless
`company` is a string) and executive summary.  `report_date` abstracts the
wall-clock `datetime.now()` string of line 39. -/
def headerBlock (report_date : String) (a : Agg) : Option (List String) := do
  let companyStr ← match a.company with | .str s => some s | _ => none
  some [eq80, center ("NÄTVERKSRAPPORT - " ++ companyStr) 80, eq80,
    "Rapportdatum: " ++ report_date, "Datauppdatering: " ++ pyStr a.last_updated, "",
    "EXECUTIVE SUMMARY", dashes 80,
    "KRITISKT: " ++ toString a.offlineL.length ++ " enheter offline",
    "VARNING:  " ++ toString a.warningL.length ++ " enheter med warning-status",
    "OBS:     " ++ toString a.lowL.length ++ " enheter med låg uptime (<" ++
      toString LOW_UPTIME_DAYS ++ " dagar)",
    "OBS:     " ++ toString a.hps.length ++ " switchar över " ++
      fmt0 HIGH_PORT_UTIL_PCT ++ "% portanvändning", ""]

/-- Lines 128-137: the low-uptime listing, sorted ascending by the re-coerced
uptime (stable), or the `"Inga."` placeholder. -/
def lowBlock (lowL : List Dict) : Option (List String) := do
  let lowPairs ← lowL.mapM fun d => (uptimeInt d).map fun u => (d, u)
  let lowRows ← (pySorted (fun a b => decide (a.2 ≤ b.2)) lowPairs).mapM lowRow
  some (["ENHETER MED LÅG UPTIME (<" ++ toString LOW_UPTIME_DAYS ++ " dagar)",
    dashes 80] ++ (if lowL.isEmpty then ["Inga."] else lowRows) ++ [""])

/-- Lines 139-147: the per-type histogram with its grand total. -/
def histBlock (bt : List (JVal × Nat)) (total : Nat) : Option (List String) := do
  let histKeys ← pySortedKeys (bt.map Prod.fst)
  let histRows ← histKeys.mapM (histRow bt)
  some (["STATISTIK PER ENHETSTYP", dashes 80] ++ histRows ++
    [dashes 40, ljust "TOTALT" 15 ++ ": " ++ rjust (toString total) 3 ++ " enheter", ""])

/-- Lines 149-159: global and per-site port utilization. -/
def portBlock (total_used total_ports : Int) (sp : List (JVal × PortAcc)) :
    Option (List String) := do
  let spKeys ← pySortedKeys (sp.map Prod.fst)
  let spRows ← spKeys.mapM (sitePortRow sp)
  some (["PORTANVÄNDNING – SWITCHAR", dashes 80,
    "Totalt: " ++ toString total_used ++ "/" ++ toString total_ports ++
      " portar används (" ++ fmt1 (pct total_used total_ports) ++ "%)", "",
    "Per site:"] ++ spRows ++ [""])

/-- Lines 161-170: the displayed high-utilization listing (stable descending
sort), or the `"Inga."` placeholder. -/
def highBlock (hps : List (Dict × ℚ)) : Option (List String) := do
  let highRows ← (pySorted highLe hps).mapM highRowFn
  some (["SWITCHAR ÖVER " ++ fmt0 HIGH_PORT_UTIL_PCT ++ "% PORTANVÄNDNING",
    dashes 80] ++ (if hps.isEmpty then ["Inga."] else highRows) ++ [""])

/-- Lines 172-178: the VLAN summary. -/
def vlanBlock (vset : List Int) : List String :=
  let vlansSorted := pySorted (fun a b => decide (a ≤ b)) vset
  ["VLAN-ÖVERSIKT", dashes 80,
    "Totalt antal unika VLAN: " ++ toString vlansSorted.length,
    "VLANs: " ++ String.intercalate ", " (vlansSorted.map toString), ""]

/-- Lines 34-191 after `json.loads`: the full report as the list of lines
`"\n".join(lines)` receives.  `none` models any exception aborting the run
before the output file is written. -/
def mainLines (report_date : String) (data : Dict) : Option (List String) := do
  let a ← aggregates data
  let hdr ← headerBlock report_date a
  let offB ← add_device_list "ENHETER MED STATUS: OFFLINE" a.offlineL
  let warnB ← add_device_list "ENHETER MED STATUS: WARNING" a.warningL
  let lowB ← lowBlock a.lowL
  let histB ← histBlock a.bt a.devices.length
  let portB ← portBlock a.total_used a.total_ports a.sp
  let highB ← highBlock a.hps
  let ssB ← siteStatsBlock a.ss
  some (hdr ++ offB ++ warnB ++ lowB ++ histB ++ portB ++ highB ++
    vlanBlock a.vset ++ ssB ++ [eq80, "RAPPORT SLUT", eq80])

/-- Python values at the object level, used to state what `load_devices`
does to the heap: dicts are references into a `Heap`, so that the copy made
by `dict(dev)` at line 18 — and the absence of writes to the original
location/device dicts — is observable rather than built into the model. -/
inductive PVal where
  | null
  | bool (b : Bool)
  | int (n : Int)
  | str (s : String)
  | list (xs : List PVal)
  | ref (a : Nat)

/-- A dict object's own storage. -/
abbrev PDict := List (String × PVal)

/-- The store of dict objects, addressed by allocation index. -/
structure Heap where
  cells : List PDict

/-- Key lookup in a dict object. -/
def plookup (d : PDict) (k : String) : Option PVal :=
  match d with
  | [] => none
  | (k', v) :: rest => if k' = k then some v else plookup rest k

/-- `d.get(k, default)` at the object level. -/
def pgetD (d : PDict) (k : String) (dflt : PVal) : PVal :=
  (plookup d k).getD dflt

/-- `d[k] = v` at the object level (applied only to freshly copied dicts
below, exactly as in lines 18-21). -/
def psetKey (d : PDict) (k : String) (v : PVal) : PDict :=
  match d with
  | [] => [(k, v)]
  | (k', v') :: rest =>
      if k' = k then (k, v) :: rest else (k', v') :: psetKey rest k v

/-- Lines 19-21 applied to the copy of a device dict (a shallow copy: field
values, including references, are shared). -/
def penrich (site city contact : PVal) (dev : PDict) : PDict :=
  psetKey (psetKey (psetKey dev "_site" site) "_city" city) "_contact" contact

/-- Iteration at the object level; only lists and strings are iterable in
this fragment (iterating anything else aborts the run, as does the
`.get`/`dict` call that follows on a string's characters). -/
def pyIterP : PVal → Option (List PVal)
  | .list xs => some xs
  | .str s => some (s.data.map fun c => .str (String.mk [c]))
  | _ => none

/-- A reference, or `none` (`loc.get(...)`/`dict(dev)` on a non-dict raises). -/
def asRefP : PVal → Option Nat
  | .ref a => some a
  | _ => none

/-- The inner loop of `load_devices` at the object level: each device
reference is dereferenced, its dict is copied into a fresh cell and the copy
is enriched; the source cell is not written. -/
def loadDevsH (h : Heap) (site city contact : PVal) : List PVal → Option (Heap × List Nat)
  | [] => some (h, [])
  | dv :: rest => do
      let b ← asRefP dv
      let dd ← h.cells[b]?
      let h1 : Heap := ⟨h.cells ++ [penrich site city contact dd]⟩
      let (h2, refs) ← loadDevsH h1 site city contact rest
      some (h2, h.cells.length :: refs)

/-- The outer loop of `load_devices` at the object level. -/
def loadLocsH (h : Heap) : List PVal → Option (Heap × List Nat)
  | [] => some (h, [])
  | lv :: rest => do
      let a ← asRefP lv
      let loc ← h.cells[a]?
      let devs ← pyIterP (pgetD loc "devices" (.list []))
      let (h1, refs1) ← loadDevsH h (pgetD loc "site" .null) (pgetD loc "city" .null)
        (pgetD loc "contact" .null) devs
      let (h2, refs2) ← loadLocsH h1 rest
      some (h2, refs1 ++ refs2)

/-- `load_devices` (lines 11-23) at the object level: `data` is the parsed
document's top-level dict; the returned addresses are those of the enriched
copies the call appended to the heap. -/
def load_devices_heap (h : Heap) (data : PDict) : Option (Heap × List Nat) := do
  let locs ← pyIterP (pgetD data "locations" (.list []))
  loadLocsH h locs

mutual

/-- All references inside a value point below address `n`. -/
def refsBelow (n : Nat) : PVal → Bool
  | .ref a => decide (a < n)
  | .list xs => refsBelowL n xs
  | _ => true

/-- All references inside any element point below address `n`. -/
def refsBelowL (n : Nat) : List PVal → Bool
  | [] => true
  | x :: xs => refsBelow n x && refsBelowL n xs

end

/-- All references stored in a dict point below address `n`. -/
def dictRefsBelow (n : Nat) (d : PDict) : Bool :=
  d.all fun f => refsBelow n f.2

/-- A closed heap: every reference stored in any cell points to an existing
cell — true of any heap built by parsing a JSON document. -/
def Heap.Closed (h : Heap) : Bool :=
  h.cells.all (dictRefsBelow h.cells.length)

section SortLemmas

variable {α : Type _}

theorem stableInsert_perm (le : α → α → Bool) (x : α) (l : List α) :
    (stableInsert le x l).Perm (x :: l) := by
  induction l with
  | nil => simp [stableInsert]
  | cons y ys ih =>
      simp only [stableInsert]
      by_cases hyx : le y x = true
      · rw [if_pos hyx]
        exact (ih.cons y).trans (List.Perm.swap x y ys)
      · rw [if_neg hyx]

theorem pySorted_foldl_perm (le : α → α → Bool) :
    ∀ (l acc : List α),
      (l.foldl (fun acc x => stableInsert le x acc) acc).Perm (acc ++ l)
  | [], acc => by simp
  | x :: xs, acc => by
      simp only [List.foldl_cons]
      refine (pySorted_foldl_perm le xs (stableInsert le x acc)).trans ?_
      exact ((stableInsert_perm le x acc).append_right xs).trans List.perm_middle.symm

theorem pySorted_perm (le : α → α → Bool) (l : List α) :
    (pySorted le l).Perm l := by
  simpa [pySorted] using pySorted_foldl_perm le l []

theorem stableInsert_pairwise {le : α → α → Bool}
    (htr : ∀ a b c, le a b = true → le b c = true → le a c = true)
    (hto : ∀ a b, le a b = true ∨ le b a = true)
    (x : α) {l : List α} (hl : l.Pairwise fun a b => le a b = true) :
    (stableInsert le x l).Pairwise fun a b => le a b = true := by
  induction l with
  | nil => simp [stableInsert]
  | cons y ys ih =>
      rcases List.pairwise_cons.mp hl with ⟨hy, hys⟩
      simp only [stableInsert]
      by_cases hyx : le y x = true
      · rw [if_pos hyx]
        refine List.pairwise_cons.mpr ⟨?_, ih hys⟩
        intro z hz
        rcases List.mem_cons.mp ((stableInsert_perm le x ys).mem_iff.mp hz) with rfl | hz'
        · exact hyx
        · exact hy z hz'
      · rw [if_neg hyx]
        have hxy : le x y = true := (hto x y).resolve_right hyx
        refine List.pairwise_cons.mpr ⟨?_, hl⟩
        intro z hz
        rcases List.mem_cons.mp hz with rfl | hz'
        · exact hxy
        · exact htr x y z hxy (hy z hz')

theorem pySorted_foldl_pairwise {le : α → α → Bool}
    (htr : ∀ a b c, le a b = true → le b c = true → le a c = true)
    (hto : ∀ a b, le a b = true ∨ le b a = true) :
    ∀ (l acc : List α), (acc.Pairwise fun a b => le a b = true) →
      ((l.foldl (fun acc x => stableInsert le x acc) acc).Pairwise
        fun a b => le a b = true)
  | [], _, h => h
  | x :: xs, acc, h => by
      simp only [List.foldl_cons]
      exact pySorted_foldl_pairwise htr hto xs (stableInsert le x acc)
        (stableInsert_pairwise htr hto x h)

theorem pySorted_pairwise {le : α → α → Bool}
    (htr : ∀ a b c, le a b = true → le b c = true → le a c = true)
    (hto : ∀ a b, le a b = true ∨ le b a = true) (l : List α) :
    (pySorted le l).Pairwise fun a b => le a b = true :=
  pySorted_foldl_pairwise htr hto l [] (List.Pairwise.nil)

theorem stableInsert_filter_pos {le : α → α → Bool} {p : α → Bool}
    (htr : ∀ a b c, le a b = true → le b c = true → le a c = true)
    (hp : ∀ a b, p a = true → p b = true → le a b = true)
    {x : α} (hx : p x = true) :
    ∀ {l : List α}, (l.Pairwise fun a b => le a b = true) →
      (stableInsert le x l).filter p = l.filter p ++ [x] := by
  intro l hl
  induction l with
  | nil => simp [stableInsert, hx]
  | cons y ys ih =>
      rcases List.pairwise_cons.mp hl with ⟨hy, hys⟩
      simp only [stableInsert]
      by_cases hyx : le y x = true
      · rw [if_pos hyx]
        by_cases hpy : p y = true
        · simp [List.filter_cons, hpy, ih hys]
        · simp [List.filter_cons, hpy, ih hys]
      · rw [if_neg hyx]
        have hpy : p y = false := by
          cases hb : p y
          · rfl
          · exact absurd (hp y x hb hx) hyx
        have hnone : ∀ z ∈ ys, ¬ p z = true := by
          intro z hz hb
          exact hyx (htr y z x (hy z hz) (hp z x hb hx))
        have hys0 : ys.filter p = [] := List.filter_eq_nil_iff.mpr hnone
        simp [List.filter_cons, hx, hpy, hys0]

theorem stableInsert_filter_neg {le : α → α → Bool} {p : α → Bool}
    {x : α} (hx : p x = false) :
    ∀ (l : List α), (stableInsert le x l).filter p = l.filter p := by
  intro l
  induction l with
  | nil => simp [stableInsert, hx]
  | cons y ys ih =>
      simp only [stableInsert]
      by_cases hyx : le y x = true
      · rw [if_pos hyx]
        simp [List.filter_cons, ih]
      · rw [if_neg hyx]
        simp [List.filter_cons, hx]

theorem pySorted_foldl_filter {le : α → α → Bool} {p : α → Bool}
    (htr : ∀ a b c, le a b = true → le b c = true → le a c = true)
    (hto : ∀ a b, le a b = true ∨ le b a = true)
    (hp : ∀ a b, p a = true → p b = true → le a b = true) :
    ∀ (l acc : List α), (acc.Pairwise fun a b => le a b = true) →
      (l.foldl (fun acc x => stableInsert le x acc) acc).filter p =
        acc.filter p ++ l.filter p
  | [], acc, _ => by simp
  | x :: xs, acc, h => by
      simp only [List.foldl_cons]
      rw [pySorted_foldl_filter htr hto hp xs (stableInsert le x acc)
        (stableInsert_pairwise htr hto x h)]
      by_cases hx : p x = true
      · rw [stableInsert_filter_pos htr hp hx h]
        simp [List.filter_cons, hx]
      · rw [stableInsert_filter_neg (Bool.eq_false_iff.mpr hx) acc]
        simp [List.filter_cons, hx]

theorem pySorted_filter {le : α → α → Bool} {p : α → Bool}
    (htr : ∀ a b c, le a b = true → le b c = true → le a c = true)
    (hto : ∀ a b, le a b = true ∨ le b a = true)
    (hp : ∀ a b, p a = true → p b = true → le a b = true) (l : List α) :
    (pySorted le l).filter p = l.filter p := by
  simpa [pySorted] using pySorted_foldl_filter htr hto hp l [] List.Pairwise.nil

end SortLemmas

/-- C2: `pct(used, total)` is exactly 0 when `total = 0`, and the true
quotient `used · 100 / total` otherwise, for all non-negative integers —
division by zero is defined away, not an error. -/
theorem pct_spec (used total : ℕ) :
    pct ((used : ℕ) : ℤ) 0 = 0 ∧
    (total ≠ 0 →
      pct ((used : ℕ) : ℤ) ((total : ℕ) : ℤ) = (used : ℚ) * 100 / (total : ℚ)) := by
  constructor
  · simp [pct]
  · intro h
    have ht : ((total : ℕ) : ℤ) ≠ 0 := Int.natCast_ne_zero.mpr h
    rw [pct, if_neg ht]
    push_cast
    ring

theorem pct_spec_w :
    pct ((3 : ℕ) : ℤ) 0 = 0 ∧
    pct ((3 : ℕ) : ℤ) ((4 : ℕ) : ℤ) = ((3 : ℕ) : ℚ) * 100 / ((4 : ℕ) : ℚ) :=
  ⟨(pct_spec 3 4).1, (pct_spec 3 4).2 (by decide)⟩

/-- C5: a device whose `status` field is absent appears in neither the
offline nor the warning filtered list (it is treated as online). -/
theorem status_absent_not_filtered (devices : List Dict) (d : Dict)
    (_hmem : d ∈ devices) (habs : dlookup d "status" = none) :
    d ∉ offline devices ∧ d ∉ warning devices := by
  constructor <;> intro hin
  · have h := (List.mem_filter.mp hin).2
    rw [dget, habs] at h
    simp [pyEqStr] at h
  · have h := (List.mem_filter.mp hin).2
    rw [dget, habs] at h
    simp [pyEqStr] at h

/-- C5 at a concrete input. -/
def devC5 : Dict := [("hostname", JVal.str "core-sw")]

theorem status_absent_not_filtered_w :
    devC5 ∉ offline [devC5] ∧ devC5 ∉ warning [devC5] :=
  status_absent_not_filtered [devC5] devC5 (List.mem_singleton.mpr rfl) rfl

theorem bumpKey_snd_sum (h : List (JVal × Nat)) (t : JVal) :
    ((bumpKey h t).map Prod.snd).sum = (h.map Prod.snd).sum + 1 := by
  induction h with
  | nil => simp [bumpKey]
  | cons kv rest ih =>
      obtain ⟨k, c⟩ := kv
      simp only [bumpKey]
      by_cases hk : JVal.beq k t = true
      · rw [if_pos hk]
        simp [List.sum_cons]
        omega
      · rw [if_neg hk]
        simp [List.sum_cons, ih]
        omega

theorem byTypeGo_sum :
    ∀ (devices : List Dict) (acc bt : List (JVal × Nat)),
      byTypeGo devices acc = some bt →
      (bt.map Prod.snd).sum = (acc.map Prod.snd).sum + devices.length
  | [], acc, bt, h => by
      simp only [byTypeGo, Option.some.injEq] at h
      subst h
      simp
  | d :: rest, acc, bt, h => by
      simp only [byTypeGo, Option.bind_eq_bind] at h
      cases hb : bumpJ acc (dget d "type" (.str "unknown")) with
      | none => rw [hb] at h; simp at h
      | some acc2 =>
          rw [hb] at h
          simp only [Option.some_bind] at h
          have hrec := byTypeGo_sum rest acc2 bt h
          have hacc2 : (acc2.map Prod.snd).sum = (acc.map Prod.snd).sum + 1 := by
            simp only [bumpJ] at hb
            split at hb
            · cases hb
              exact bumpKey_snd_sum acc _
            · simp at hb
          rw [hrec, hacc2]
          simp [List.length_cons]
          omega

/-- C6: whenever the histogram pass completes (line 49 hashes every type
key without a `TypeError`), its counts sum exactly to the number of devices
in the flattened list. -/
theorem by_type_counts_total (devices : List Dict) (bt : List (JVal × Nat))
    (h : by_type devices = some bt) :
    (bt.map Prod.snd).sum = devices.length := by
  simpa using byTypeGo_sum devices [] bt h

/-- C6 at a concrete input: two switches and a device with no `type`. -/
def devC6a : Dict := [("type", JVal.str "switch")]

def devC6b : Dict := [("hostname", JVal.str "x")]

def devC6c : Dict := [("type", JVal.str "switch")]

theorem by_type_counts_total_w :
    (([(JVal.str "switch", 2), (JVal.str "unknown", 1)] :
      List (JVal × Nat)).map Prod.snd).sum = [devC6a, devC6b, devC6c].length :=
  by_type_counts_total [devC6a, devC6b, devC6c]
    [(JVal.str "switch", 2), (JVal.str "unknown", 1)] rfl

/-- C1 fails as stated: a present but non-integer-coercible `uptime_days`
value is fatal — the low-uptime comprehension (line 43) raises `ValueError`
instead of applying the default 0, so the aggregation does not complete. -/
theorem low_uptime_malformed_none :
    low_uptime [[("uptime_days", JVal.str "soon")]] = none := by
  rfl

/-- C1, amended: field accesses apply defaults on *missing* fields — a
device with no `uptime_days` key is coerced to the default 0 and the
aggregation completes (such a device always lands in the low-uptime list);
malformed *present* values, however, abort the run. -/
theorem low_uptime_defaults (devices : List Dict)
    (h : ∀ d ∈ devices, (uptimeInt d).isSome = true) :
    ∃ l, low_uptime devices = some l ∧
      ∀ d ∈ devices, dlookup d "uptime_days" = none → uptimeInt d = some 0 ∧ d ∈ l := by
  induction devices with
  | nil => exact ⟨[], rfl, by simp⟩
  | cons d rest ih =>
      obtain ⟨u, hu⟩ := Option.isSome_iff_exists.mp (h d (List.mem_cons_self d rest))
      obtain ⟨l, hl, hmem⟩ := ih fun e he => h e (List.mem_cons_of_mem d he)
      refine ⟨if u < LOW_UPTIME_DAYS then d :: l else l, ?_, ?_⟩
      · simp [low_uptime, hu, hl]
      · intro e he habs
        rcases List.mem_cons.mp he with rfl | he'
        · have h0 : uptimeInt e = some 0 := by simp [uptimeInt, dget, habs, pyInt]
          have hu0 : u = 0 := by
            rw [h0] at hu
            exact (Option.some.inj hu).symm
          subst hu0
          refine ⟨h0, ?_⟩
          rw [if_pos (by norm_num [LOW_UPTIME_DAYS])]
          exact List.mem_cons_self e l
        · obtain ⟨h0, hml⟩ := hmem e he' habs
          refine ⟨h0, ?_⟩
          split
          · exact List.mem_cons_of_mem d hml
          · exact hml

/-- C1's amended theorem at a concrete input. -/
def devC1 : Dict := [("hostname", JVal.str "r1")]

theorem low_uptime_defaults_w :
    ∃ l, low_uptime [devC1] = some l ∧
      ∀ d ∈ [devC1], dlookup d "uptime_days" = none → uptimeInt d = some 0 ∧ d ∈ l :=
  low_uptime_defaults [devC1] fun d hd => by
    rw [List.mem_singleton] at hd
    subst hd
    rfl

/-- C10: a device whose `vlans` field is present but null contributes
nothing to the VLAN set and causes no error — `d.get("vlans", []) or []`
replaces the falsy `None` with `[]` before iterating. -/
theorem vlans_null_contributes_nothing (d : Dict) (rest : List Dict)
    (h : dlookup d "vlans" = some JVal.null) :
    vlanList d = some [] ∧ vlan_set (d :: rest) = vlan_set rest := by
  have h1 : vlanList d = some [] := by
    simp only [vlanList, dget, h, Option.getD_some, isFalsy]
    rfl
  refine ⟨h1, ?_⟩
  simp only [vlan_set, vlanGo, h1, Option.bind_eq_bind, Option.some_bind, List.foldl_nil]

/-- C10 at a concrete input. -/
def devC10 : Dict := [("vlans", JVal.null)]

theorem vlans_null_contributes_nothing_w :
    vlanList devC10 = some [] ∧ vlan_set [devC10] = vlan_set [] :=
  vlans_null_contributes_nothing devC10 [] rfl

theorem insertNew_mem (x v : Int) (s : List Int) :
    x ∈ insertNew s v ↔ x ∈ s ∨ x = v := by
  simp only [insertNew]
  split
  · rename_i hv
    constructor
    · exact Or.inl
    · rintro (hx | rfl)
      · exact hx
      · exact hv
  · simp [List.mem_append]

theorem foldl_insertNew_mem (x : Int) :
    ∀ (vs acc : List Int), x ∈ vs.foldl insertNew acc ↔ x ∈ acc ∨ x ∈ vs
  | [], acc => by simp
  | v :: rest, acc => by
      simp only [List.foldl_cons]
      rw [foldl_insertNew_mem x rest, insertNew_mem]
      simp only [List.mem_cons]
      tauto

theorem insertNew_nodup {s : List Int} {v : Int} (h : s.Nodup) :
    (insertNew s v).Nodup := by
  simp only [insertNew]
  split
  · exact h
  · rename_i hv
    simp [List.nodup_append, h, hv]

theorem foldl_insertNew_nodup :
    ∀ (vs acc : List Int), acc.Nodup → (vs.foldl insertNew acc).Nodup
  | [], _, h => h
  | v :: rest, acc, h => by
      simp only [List.foldl_cons]
      exact foldl_insertNew_nodup rest (insertNew acc v) (insertNew_nodup h)

theorem vlanGo_mem (x : Int) :
    ∀ (l : List Dict) (acc s : List Int), vlanGo acc l = some s →
      (x ∈ s ↔ x ∈ acc ∨ ∃ d ∈ l, ∃ items, vlanList d = some items ∧ x ∈ items)
  | [], acc, s, h => by
      simp only [vlanGo] at h
      cases h
      simp
  | d :: rest, acc, s, h => by
      simp only [vlanGo, Option.bind_eq_bind] at h
      cases hv : vlanList d with
      | none => rw [hv] at h; simp at h
      | some items =>
          rw [hv] at h
          simp only [Option.some_bind] at h
          rw [vlanGo_mem x rest _ s h, foldl_insertNew_mem]
          simp only [List.mem_cons]
          constructor
          · rintro ((hx | hx) | ⟨e, he, its, hits, hin⟩)
            · exact Or.inl hx
            · exact Or.inr ⟨d, Or.inl rfl, items, hv, hx⟩
            · exact Or.inr ⟨e, Or.inr he, its, hits, hin⟩
          · rintro (hx | ⟨e, (rfl | he), its, hits, hin⟩)
            · exact Or.inl (Or.inl hx)
            · rw [hv] at hits
              cases hits
              exact Or.inl (Or.inr hin)
            · exact Or.inr ⟨e, he, its, hits, hin⟩

theorem vlanGo_nodup :
    ∀ (l : List Dict) (acc s : List Int), vlanGo acc l = some s → acc.Nodup → s.Nodup
  | [], acc, s, h, hnd => by
      simp only [vlanGo] at h
      cases h
      exact hnd
  | d :: rest, acc, s, h, hnd => by
      simp only [vlanGo, Option.bind_eq_bind] at h
      cases hv : vlanList d with
      | none => rw [hv] at h; simp at h
      | some items =>
          rw [hv] at h
          simp only [Option.some_bind] at h
          exact vlanGo_nodup rest _ s h (foldl_insertNew_nodup items acc hnd)

/-- C7: the displayed VLAN list is strictly ascending (sorted, no
duplicates) and contains exactly the union of the devices' coerced `vlans`
entries — a device without a `vlans` field contributes nothing. -/
theorem vlan_sorted_spec (devices : List Dict) (vs : List Int)
    (h : vlan_set devices = some vs) :
    ∃ out, vlans_sorted devices = some out ∧
      out.Pairwise (fun a b : Int => a < b) ∧
      ∀ v : Int, v ∈ out ↔ ∃ d ∈ devices, ∃ items, vlanList d = some items ∧ v ∈ items := by
  have htr : ∀ a b c : Int, (decide (a ≤ b)) = true → (decide (b ≤ c)) = true →
      (decide (a ≤ c)) = true := by
    intro a b c h1 h2
    simp only [decide_eq_true_eq] at *
    omega
  have hto : ∀ a b : Int, (decide (a ≤ b)) = true ∨ (decide (b ≤ a)) = true := by
    intro a b
    simp only [decide_eq_true_eq]
    omega
  refine ⟨pySorted (fun a b => decide (a ≤ b)) vs, by simp [vlans_sorted, h], ?_, ?_⟩
  · have hle := pySorted_pairwise htr hto vs
    have hperm := pySorted_perm (fun a b : Int => decide (a ≤ b)) vs
    have hnd : (pySorted (fun a b : Int => decide (a ≤ b)) vs).Nodup :=
      hperm.nodup_iff.mpr (vlanGo_nodup devices [] vs h List.nodup_nil)
    exact (hle.and hnd).imp fun hab =>
      lt_of_le_of_ne (by simpa using hab.1) hab.2
  · intro v
    rw [(pySorted_perm (fun a b : Int => decide (a ≤ b)) vs).mem_iff]
    rw [vlanGo_mem v devices [] vs h]
    simp

/-- C7 at a concrete input: repeated and unordered VLANs across devices. -/
def devC7a : Dict := [("vlans", JVal.arr [JVal.int 30, JVal.int 10, JVal.int 30])]

def devC7b : Dict := [("hostname", JVal.str "b")]

def devC7c : Dict := [("vlans", JVal.arr [JVal.int 10, JVal.int 20])]

theorem vlan_sorted_spec_w :
    ∃ out, vlans_sorted [devC7a, devC7b, devC7c] = some out ∧
      out.Pairwise (fun a b : Int => a < b) ∧
      ∀ v : Int, v ∈ out ↔ ∃ d ∈ [devC7a, devC7b, devC7c], ∃ items,
        vlanList d = some items ∧ v ∈ items :=
  vlan_sorted_spec [devC7a, devC7b, devC7c] [30, 10, 20] rfl

theorem dlookup_setKey_self (d : Dict) (k : String) (v : JVal) :
    dlookup (setKey d k v) k = some v := by
  induction d with
  | nil => simp [setKey, dlookup]
  | cons kv rest ih =>
      obtain ⟨k', v'⟩ := kv
      simp only [setKey]
      by_cases hk : k' = k
      · rw [if_pos hk]
        simp [dlookup]
      · rw [if_neg hk]
        simp only [dlookup, if_neg hk]
        exact ih

theorem dlookup_setKey_other (d : Dict) (k k2 : String) (v : JVal) (hne : k ≠ k2) :
    dlookup (setKey d k v) k2 = dlookup d k2 := by
  induction d with
  | nil => simp [setKey, dlookup, hne]
  | cons kv rest ih =>
      obtain ⟨k', v'⟩ := kv
      simp only [setKey]
      by_cases hk : k' = k
      · rw [if_pos hk]
        simp only [dlookup, if_neg hne, hk]
      · rw [if_neg hk]
        simp only [dlookup]
        by_cases hk2 : k' = k2
        · rw [if_pos hk2, if_pos hk2]
        · rw [if_neg hk2, if_neg hk2]
          exact ih

theorem enrich_keys (s c t : JVal) (dev : Dict) :
    dlookup (enrich s c t dev) "_site" = some s ∧
    dlookup (enrich s c t dev) "_city" = some c ∧
    dlookup (enrich s c t dev) "_contact" = some t := by
  unfold enrich
  refine ⟨?_, ?_, ?_⟩
  · rw [dlookup_setKey_other _ _ _ _ (by decide), dlookup_setKey_other _ _ _ _ (by decide)]
    exact dlookup_setKey_self _ _ _
  · rw [dlookup_setKey_other _ _ _ _ (by decide)]
    exact dlookup_setKey_self _ _ _
  · exact dlookup_setKey_self _ _ _

theorem loadDevs_shape (s c t : JVal) :
    ∀ (l : List JVal) (ds : List Dict), loadDevs s c t l = some ds →
      ∀ r ∈ ds, ∃ dev, r = enrich s c t dev
  | [], ds, h => by
      simp only [loadDevs] at h
      cases h
      simp
  | dv :: rest, ds, h => by
      simp only [loadDevs, Option.bind_eq_bind] at h
      cases hd : asObj dv with
      | none => rw [hd] at h; simp at h
      | some dev =>
          rw [hd] at h
          simp only [Option.some_bind] at h
          cases ht : loadDevs s c t rest with
          | none => rw [ht] at h; simp at h
          | some tail =>
              rw [ht] at h
              simp only [Option.some_bind, Option.some.injEq] at h
              subst h
              intro r hr
              rcases List.mem_cons.mp hr with rfl | hr'
              · exact ⟨dev, rfl⟩
              · exact loadDevs_shape s c t rest tail ht r hr'

theorem loadLocs_shape :
    ∀ (l : List JVal) (ds : List Dict), loadLocs l = some ds →
      ∀ r ∈ ds, ∃ s c t dev, r = enrich s c t dev
  | [], ds, h => by
      simp only [loadLocs] at h
      cases h
      simp
  | lv :: rest, ds, h => by
      simp only [loadLocs, Option.bind_eq_bind] at h
      cases hl : asObj lv with
      | none => rw [hl] at h; simp at h
      | some loc =>
          rw [hl] at h
          simp only [Option.some_bind] at h
          cases hdv : pyIter (dget loc "devices" (JVal.arr [])) with
          | none => rw [hdv] at h; simp at h
          | some devs =>
              rw [hdv] at h
              simp only [Option.some_bind] at h
              cases hh : loadDevs (dget loc "site" JVal.null) (dget loc "city" JVal.null)
                  (dget loc "contact" JVal.null) devs with
              | none => rw [hh] at h; simp at h
              | some here =>
                  rw [hh] at h
                  simp only [Option.some_bind] at h
                  cases ht : loadLocs rest with
                  | none => rw [ht] at h; simp at h
                  | some tail =>
                      rw [ht] at h
                      simp only [Option.some_bind, Option.some.injEq] at h
                      subst h
                      intro r hr
                      rcases List.mem_append.mp hr with hr' | hr'
                      · obtain ⟨dev, hdev⟩ := loadDevs_shape _ _ _ devs here hh r hr'
                        exact ⟨_, _, _, dev, hdev⟩
                      · exact loadLocs_shape rest tail ht r hr'

/-- C9: every record produced by `load_devices` carries the `_site`,
`_city` and `_contact` keys (their values may be null), so every direct
`d["_site"]` lookup during aggregation and rendering finds a value for
every device in the flattened list. -/
theorem loaded_device_keys (data : Dict) (devs : List Dict)
    (h : load_devices data = some devs) :
    ∀ d ∈ devs, (dlookup d "_site").isSome = true ∧
      (dlookup d "_city").isSome = true ∧ (dlookup d "_contact").isSome = true := by
  have h' : ∀ d ∈ devs, ∃ s c t dev, d = enrich s c t dev := by
    simp only [load_devices, Option.bind_eq_bind] at h
    cases hl : pyIter (dget data "locations" (JVal.arr [])) with
    | none => rw [hl] at h; simp at h
    | some locs =>
        rw [hl] at h
        simp only [Option.some_bind] at h
        exact loadLocs_shape locs devs h
  intro d hd
  obtain ⟨s, c, t, dev, rfl⟩ := h' d hd
  obtain ⟨h1, h2, h3⟩ := enrich_keys s c t dev
  exact ⟨by simp [h1], by simp [h2], by simp [h3]⟩

/-- C9 at a concrete input. -/
def docC9 : Dict :=
  [("locations", JVal.arr [JVal.obj [("site", JVal.str "HQ"),
    ("devices", JVal.arr [JVal.obj [("hostname", JVal.str "sw1")]])]])]

theorem loaded_device_keys_w :
    (dlookup (enrich (JVal.str "HQ") JVal.null JVal.null
      [("hostname", JVal.str "sw1")]) "_site").isSome = true ∧
    (dlookup (enrich (JVal.str "HQ") JVal.null JVal.null
      [("hostname", JVal.str "sw1")]) "_city").isSome = true ∧
    (dlookup (enrich (JVal.str "HQ") JVal.null JVal.null
      [("hostname", JVal.str "sw1")]) "_contact").isSome = true :=
  loaded_device_keys docC9 _ rfl _ (List.mem_singleton.mpr rfl)

theorem highGo_mem (d : Dict) (p : ℚ) :
    ∀ (l : List Dict) (hps : List (Dict × ℚ)), highGo l = some hps →
      ((d, p) ∈ hps ↔ ∃ u t, d ∈ l ∧ usedOf d = some u ∧ totOf d = some t ∧
        p = pct u t ∧ HIGH_PORT_UTIL_PCT < pct u t)
  | [], hps, h => by
      simp only [highGo] at h
      cases h
      simp
  | e :: rest, hps, h => by
      simp only [highGo, Option.bind_eq_bind] at h
      cases hu : usedOf e with
      | none => rw [hu] at h; simp at h
      | some u =>
          rw [hu] at h
          simp only [Option.some_bind] at h
          cases ht : totOf e with
          | none => rw [ht] at h; simp at h
          | some t =>
              rw [ht] at h
              simp only [Option.some_bind] at h
              cases htl : highGo rest with
              | none => rw [htl] at h; simp at h
              | some tail =>
                  rw [htl] at h
                  simp only [Option.some_bind, Option.some.injEq] at h
                  subst h
                  by_cases hgt : HIGH_PORT_UTIL_PCT < pct u t
                  · rw [if_pos hgt]
                    rw [List.mem_cons, highGo_mem d p rest tail htl]
                    constructor
                    · rintro (hdp | ⟨u', t', hd, hu', ht', hp', hgt'⟩)
                      · rw [Prod.mk.injEq] at hdp
                        obtain ⟨rfl, rfl⟩ := hdp
                        exact ⟨u, t, List.mem_cons_self _ rest, hu, ht, rfl, hgt⟩
                      · exact ⟨u', t', List.mem_cons_of_mem e hd, hu', ht', hp', hgt'⟩
                    · rintro ⟨u', t', hd, hu', ht', rfl, hgt'⟩
                      rcases List.mem_cons.mp hd with rfl | hd'
                      · rw [hu] at hu'
                        rw [ht] at ht'
                        cases hu'
                        cases ht'
                        exact Or.inl rfl
                      · exact Or.inr ⟨u', t', hd', hu', ht', rfl, hgt'⟩
                  · rw [if_neg hgt]
                    rw [highGo_mem d p rest tail htl]
                    constructor
                    · rintro ⟨u', t', hd, hu', ht', hp', hgt'⟩
                      exact ⟨u', t', List.mem_cons_of_mem e hd, hu', ht', hp', hgt'⟩
                    · rintro ⟨u', t', hd, hu', ht', rfl, hgt'⟩
                      rcases List.mem_cons.mp hd with rfl | hd'
                      · rw [hu] at hu'
                        rw [ht] at ht'
                        cases hu'
                        cases ht'
                        exact absurd hgt' hgt
                      · exact ⟨u', t', hd', hu', ht', rfl, hgt'⟩

/-- C3: the displayed high-utilization switch list contains exactly the
devices with `type == "switch"` and a dict-shaped `ports` whose individual
percentage strictly exceeds 80.0, each paired with that percentage; it is
sorted descending by percentage, and ties keep the original encounter
order (the sort is stable: filtering the displayed list to any one
percentage value reproduces the pre-sort encounter order exactly). -/
theorem high_util_spec (devices : List Dict) (hps : List (Dict × ℚ))
    (h : high_port_switches devices = some hps) :
    ∃ out, high_sorted devices = some out ∧
      (∀ d p, (d, p) ∈ out ↔
        (d ∈ devices ∧ pyEqStr (dget d "type" JVal.null) "switch" = true ∧
          isObj (dget d "ports" JVal.null) = true ∧
          ∃ u t, usedOf d = some u ∧ totOf d = some t ∧ p = pct u t ∧
            HIGH_PORT_UTIL_PCT < p)) ∧
      out.Pairwise (fun a b => b.2 ≤ a.2) ∧
      ∀ q : ℚ, out.filter (fun x => decide (x.2 = q)) =
        hps.filter (fun x => decide (x.2 = q)) := by
  have h' : highGo (switch_devices devices) = some hps := h
  have htr : ∀ a b c : Dict × ℚ, highLe a b = true → highLe b c = true →
      highLe a c = true := by
    intro a b c h1 h2
    simp only [highLe, decide_eq_true_eq] at *
    exact le_trans h2 h1
  have hto : ∀ a b : Dict × ℚ, highLe a b = true ∨ highLe b a = true := by
    intro a b
    simp only [highLe, decide_eq_true_eq]
    exact le_total b.2 a.2
  refine ⟨pySorted highLe hps, by simp [high_sorted, h], ?_, ?_, ?_⟩
  · intro d p
    rw [(pySorted_perm highLe hps).mem_iff]
    rw [highGo_mem d p (switch_devices devices) hps h']
    constructor
    · rintro ⟨u, t, hd, hu, ht, rfl, hgt⟩
      have hf := List.mem_filter.mp hd
      have hb : pyEqStr (dget d "type" JVal.null) "switch" = true ∧
          isObj (dget d "ports" JVal.null) = true := by
        have h2 := hf.2
        simp only [Bool.and_eq_true] at h2
        exact h2
      exact ⟨hf.1, hb.1, hb.2, u, t, hu, ht, rfl, hgt⟩
    · rintro ⟨hdev, hsw, hob, u, t, hu, ht, rfl, hgt⟩
      exact ⟨u, t, List.mem_filter.mpr ⟨hdev, by simp [hsw, hob]⟩,
        hu, ht, rfl, hgt⟩
  · have hpw := pySorted_pairwise htr hto hps
    exact hpw.imp fun hab => by simpa [highLe] using hab
  · intro q
    refine pySorted_filter htr hto ?_ hps
    intro a b ha hb
    simp only [decide_eq_true_eq] at ha hb
    simp [highLe, ha, hb]

/-- C3 at a concrete input: two qualifying switches (90% and 85%), a
router, and a low-utilization switch. -/
def swA : Dict :=
  [("hostname", JVal.str "swA"), ("type", JVal.str "switch"),
   ("ports", JVal.obj [("used", JVal.int 9), ("total", JVal.int 10)])]

def swB : Dict :=
  [("hostname", JVal.str "swB"), ("type", JVal.str "switch"),
   ("ports", JVal.obj [("used", JVal.int 17), ("total", JVal.int 20)])]

def rtC : Dict :=
  [("hostname", JVal.str "rtC"), ("type", JVal.str "router")]

def swD : Dict :=
  [("hostname", JVal.str "swD"), ("type", JVal.str "switch"),
   ("ports", JVal.obj [("used", JVal.int 1), ("total", JVal.int 10)])]

theorem high_util_spec_w :
    ∃ out, high_sorted [swA, rtC, swB, swD] = some out ∧
      (∀ d p, (d, p) ∈ out ↔
        (d ∈ [swA, rtC, swB, swD] ∧ pyEqStr (dget d "type" JVal.null) "switch" = true ∧
          isObj (dget d "ports" JVal.null) = true ∧
          ∃ u t, usedOf d = some u ∧ totOf d = some t ∧ p = pct u t ∧
            HIGH_PORT_UTIL_PCT < p)) ∧
      out.Pairwise (fun a b => b.2 ≤ a.2) ∧
      ∀ q : ℚ, out.filter (fun x => decide (x.2 = q)) =
        [(swA, pct 9 10), (swB, pct 17 20)].filter (fun x => decide (x.2 = q)) :=
  high_util_spec [swA, rtC, swB, swD] [(swA, pct 9 10), (swB, pct 17 20)] (by
    have hA : HIGH_PORT_UTIL_PCT < pct 9 10 := by norm_num [HIGH_PORT_UTIL_PCT, pct]
    have hB : HIGH_PORT_UTIL_PCT < pct 17 20 := by norm_num [HIGH_PORT_UTIL_PCT, pct]
    have hD : ¬ HIGH_PORT_UTIL_PCT < pct 1 10 := by norm_num [HIGH_PORT_UTIL_PCT, pct]
    have hgo : highGo [swA, swB, swD] = some [(swA, pct 9 10), (swB, pct 17 20)] := by
      simp only [highGo,
        show usedOf swA = some 9 from rfl, show totOf swA = some 10 from rfl,
        show usedOf swB = some 17 from rfl, show totOf swB = some 20 from rfl,
        show usedOf swD = some 1 from rfl, show totOf swD = some 10 from rfl,
        Option.bind_eq_bind, Option.some_bind]
      rw [if_neg hD, if_pos hB, if_pos hA]
    show highGo (switch_devices [swA, rtC, swB, swD]) = _
    rw [show switch_devices [swA, rtC, swB, swD] = [swA, swB, swD] from rfl]
    exact hgo)

/-- C4 fails as stated: with an empty aggregate the per-site status section
(lines 180-186) renders an empty table — title and rule with no body — and
contains neither a literal `"Inga."` placeholder line nor any zero-count
line (no line of it even contains a digit).  The claim's "every section"
therefore does not hold. -/
theorem siteStats_empty_no_placeholder :
    site_stats ([] : List Dict) = some [] ∧
    siteStatsBlock [] = some ["STATISTIK PER SITE", dashes 80, ""] ∧
    "Inga." ∉ ["STATISTIK PER SITE", dashes 80, ""] ∧
    (["STATISTIK PER SITE", dashes 80, ""].any fun l => l.data.any Char.isDigit) = false := by
  refine ⟨rfl, rfl, by decide, by decide⟩

/-- The document with an empty `locations` array. -/
def emptyDoc : Dict := [("locations", JVal.arr [])]

/-- C4, amended: no section raises an error on an empty aggregate — the
report for an empty `locations` array renders in full.  The two status
tables, the low-uptime listing and the high-utilization listing show the
literal `"Inga."` placeholder; the histogram total, the global port line and
the VLAN summary show zero counts; the per-site port subsection and the
per-site status section render empty bodies (title/rule only), with no
placeholder line. -/
theorem report_empty_locations :
    mainLines "2025-01-01 00:00" emptyDoc = some [
    eq80,
    "                           NÄTVERKSRAPPORT - Unknown                            ",
    eq80,
    "Rapportdatum: 2025-01-01 00:00",
    "Datauppdatering: ",
    "",
    "EXECUTIVE SUMMARY",
    dashes 80,
    "KRITISKT: 0 enheter offline",
    "VARNING:  0 enheter med warning-status",
    "OBS:     0 enheter med låg uptime (<30 dagar)",
    "OBS:     0 switchar över 80% portanvändning",
    "",
    "ENHETER MED STATUS: OFFLINE",
    dashes 80,
    "Inga.",
    "",
    "ENHETER MED STATUS: WARNING",
    dashes 80,
    "Inga.",
    "",
    "ENHETER MED LÅG UPTIME (<30 dagar)",
    dashes 80,
    "Inga.",
    "",
    "STATISTIK PER ENHETSTYP",
    dashes 80,
    dashes 40,
    "TOTALT         :   0 enheter",
    "",
    "PORTANVÄNDNING – SWITCHAR",
    dashes 80,
    "Totalt: 0/0 portar används (0.0%)",
    "",
    "Per site:",
    "",
    "SWITCHAR ÖVER 80% PORTANVÄNDNING",
    dashes 80,
    "Inga.",
    "",
    "VLAN-ÖVERSIKT",
    dashes 80,
    "Totalt antal unika VLAN: 0",
    "VLANs: ",
    "",
    "STATISTIK PER SITE",
    dashes 80,
    "",
    eq80,
    "RAPPORT SLUT",
    eq80] := by
  rfl

theorem asRefP_eq (dv : PVal) (b : Nat) (h : asRefP dv = some b) : dv = PVal.ref b := by
  cases dv <;> simp [asRefP] at h
  rw [h]

theorem refsBelowL_mem {n : Nat} :
    ∀ {xs : List PVal}, refsBelowL n xs = true → ∀ x ∈ xs, refsBelow n x = true
  | [], _, x, hx => by simp at hx
  | y :: ys, h, x, hx => by
      rw [refsBelowL, Bool.and_eq_true] at h
      rcases List.mem_cons.mp hx with rfl | hx'
      · exact h.1
      · exact refsBelowL_mem h.2 x hx'

theorem pyIterP_refsBelow {n : Nat} {v : PVal} {items : List PVal}
    (hit : pyIterP v = some items) (hb : refsBelow n v = true) :
    ∀ x ∈ items, ∀ b, x = PVal.ref b → b < n := by
  cases v with
  | list xs =>
      simp only [pyIterP, Option.some.injEq] at hit
      subst hit
      intro x hx b hxb
      subst hxb
      have := refsBelowL_mem (by simpa [refsBelow] using hb) _ hx
      simpa [refsBelow] using this
  | str s =>
      simp only [pyIterP, Option.some.injEq] at hit
      subst hit
      intro x hx b hxb
      subst hxb
      simp at hx
  | null => simp [pyIterP] at hit
  | bool b => simp [pyIterP] at hit
  | int m => simp [pyIterP] at hit
  | ref a => simp [pyIterP] at hit

theorem plookup_mem_snd :
    ∀ {d : PDict} {k : String} {v : PVal}, plookup d k = some v → v ∈ d.map Prod.snd
  | [], k, v, hp => by simp [plookup] at hp
  | (k', v') :: rest, k, v, hp => by
      simp only [plookup] at hp
      by_cases hk : k' = k
      · rw [if_pos hk] at hp
        cases hp
        simp
      · rw [if_neg hk] at hp
        simp [plookup_mem_snd hp]

theorem pgetD_refsBelow (k : String) {n : Nat} {d : PDict}
    (hd : dictRefsBelow n d = true) :
    refsBelow n (pgetD d k (PVal.list [])) = true := by
  rw [pgetD]
  cases hp : plookup d k with
  | none => simp [refsBelow, refsBelowL]
  | some v =>
      simp only [Option.getD_some]
      rw [dictRefsBelow, List.all_eq_true] at hd
      obtain ⟨f, hf, rfl⟩ := List.mem_map.mp (plookup_mem_snd hp)
      exact hd f hf

theorem loadDevsH_spec :
    ∀ (l : List PVal) (h : Heap) (s c t : PVal) (h2 : Heap) (refs : List Nat) (n : Nat),
      loadDevsH h s c t l = some (h2, refs) →
      n ≤ h.cells.length →
      (∀ dv ∈ l, ∀ b, dv = PVal.ref b → b < n) →
      h.cells.IsPrefix h2.cells ∧
      ∀ r ∈ refs, h.cells.length ≤ r ∧
        ∃ dd, dd ∈ h.cells.take n ∧ h2.cells[r]? = some (penrich s c t dd)
  | [], h, s, c, t, h2, refs, n, hl, _, _ => by
      simp only [loadDevsH, Option.some.injEq, Prod.mk.injEq] at hl
      obtain ⟨rfl, rfl⟩ := hl
      exact ⟨List.prefix_refl _, by simp⟩
  | dv :: rest, h, s, c, t, h2, refs, n, hl, hn, hrb => by
      simp only [loadDevsH, Option.bind_eq_bind] at hl
      cases hb : asRefP dv with
      | none => rw [hb] at hl; simp at hl
      | some b =>
          rw [hb] at hl
          simp only [Option.some_bind] at hl
          cases hdd : h.cells[b]? with
          | none => rw [hdd] at hl; simp at hl
          | some dd =>
              rw [hdd] at hl
              simp only [Option.some_bind] at hl
              cases hrec : loadDevsH ⟨h.cells ++ [penrich s c t dd]⟩ s c t rest with
              | none => rw [hrec] at hl; simp at hl
              | some pr =>
                  obtain ⟨h3, refs3⟩ := pr
                  rw [hrec] at hl
                  simp only [Option.some_bind, Option.some.injEq, Prod.mk.injEq] at hl
                  obtain ⟨rfl, rfl⟩ := hl
                  have hb' : b < n := hrb dv (List.mem_cons_self dv rest) b (asRefP_eq dv b hb)
                  have hn1 : n ≤ (h.cells ++ [penrich s c t dd]).length := by
                    simp only [List.length_append, List.length_singleton]
                    omega
                  obtain ⟨hpre1, hrefs⟩ := loadDevsH_spec rest ⟨h.cells ++ [penrich s c t dd]⟩
                    s c t h3 refs3 n hrec hn1
                    (fun e he => hrb e (List.mem_cons_of_mem dv he))
                  refine ⟨(List.prefix_append h.cells [penrich s c t dd]).trans hpre1, ?_⟩
                  intro r hr
                  rcases List.mem_cons.mp hr with rfl | hr'
                  · refine ⟨le_refl _, dd, ?_, ?_⟩
                    · have htk : (h.cells.take n)[b]? = some dd := by
                        rw [List.getElem?_take, if_pos hb']
                        exact hdd
                      exact List.getElem?_mem htk
                    · obtain ⟨u, hu⟩ := hpre1
                      rw [← hu, List.getElem?_append]
                      rw [if_pos (by simp)]
                      exact List.getElem?_concat_length h.cells (penrich s c t dd)
                  · obtain ⟨hge, dd', hmem, hget⟩ := hrefs r hr'
                    refine ⟨?_, dd', ?_, hget⟩
                    · simp only [List.length_append, List.length_singleton] at hge
                      omega
                    · rwa [List.take_append_of_le_length hn] at hmem

theorem loadLocsH_spec :
    ∀ (l : List PVal) (h : Heap) (h2 : Heap) (refs : List Nat) (n : Nat),
      loadLocsH h l = some (h2, refs) →
      n ≤ h.cells.length →
      (∀ lv ∈ l, ∀ a, lv = PVal.ref a → a < n) →
      (∀ dd ∈ h.cells.take n, dictRefsBelow n dd = true) →
      h.cells.IsPrefix h2.cells ∧
      ∀ r ∈ refs, h.cells.length ≤ r ∧
        ∃ s c t dd, dd ∈ h.cells.take n ∧ h2.cells[r]? = some (penrich s c t dd)
  | [], h, h2, refs, n, hl, _, _, _ => by
      simp only [loadLocsH, Option.some.injEq, Prod.mk.injEq] at hl
      obtain ⟨rfl, rfl⟩ := hl
      exact ⟨List.prefix_refl _, by simp⟩
  | lv :: rest, h, h2, refs, n, hl, hn, hrb, hcl => by
      simp only [loadLocsH, Option.bind_eq_bind] at hl
      cases ha : asRefP lv with
      | none => rw [ha] at hl; simp at hl
      | some a =>
          rw [ha] at hl
          simp only [Option.some_bind] at hl
          cases hloc : h.cells[a]? with
          | none => rw [hloc] at hl; simp at hl
          | some loc =>
              rw [hloc] at hl
              simp only [Option.some_bind] at hl
              cases hit : pyIterP (pgetD loc "devices" (PVal.list [])) with
              | none => rw [hit] at hl; simp at hl
              | some devs =>
                  rw [hit] at hl
                  simp only [Option.some_bind] at hl
                  cases hdl : loadDevsH h (pgetD loc "site" PVal.null)
                      (pgetD loc "city" PVal.null) (pgetD loc "contact" PVal.null) devs with
                  | none => rw [hdl] at hl; simp at hl
                  | some prA =>
                      obtain ⟨hA, refs1⟩ := prA
                      rw [hdl] at hl
                      simp only [Option.some_bind] at hl
                      cases hll : loadLocsH hA rest with
                      | none => rw [hll] at hl; simp at hl
                      | some prB =>
                          obtain ⟨hB, refs2⟩ := prB
                          rw [hll] at hl
                          simp only [Option.some_bind, Option.some.injEq,
                            Prod.mk.injEq] at hl
                          obtain ⟨rfl, rfl⟩ := hl
                          have ha' : a < n := hrb lv (List.mem_cons_self lv rest) a
                            (asRefP_eq lv a ha)
                          have hlocmem : loc ∈ h.cells.take n := by
                            have htk : (h.cells.take n)[a]? = some loc := by
                              rw [List.getElem?_take, if_pos ha']
                              exact hloc
                            exact List.getElem?_mem htk
                          have hlocrb : dictRefsBelow n loc = true := hcl loc hlocmem
                          have hdevrb : ∀ dv ∈ devs, ∀ b, dv = PVal.ref b → b < n :=
                            pyIterP_refsBelow hit (pgetD_refsBelow "devices" hlocrb)
                          obtain ⟨hpreA, hrefs1⟩ := loadDevsH_spec devs h _ _ _ hA refs1 n
                            hdl hn hdevrb
                          have hnA : n ≤ hA.cells.length := by
                            obtain ⟨u, hu⟩ := hpreA
                            rw [← hu, List.length_append]
                            omega
                          have htakeA : hA.cells.take n = h.cells.take n := by
                            obtain ⟨u, hu⟩ := hpreA
                            rw [← hu, List.take_append_of_le_length hn]
                          obtain ⟨hpreB, hrefs2⟩ := loadLocsH_spec rest hA hB refs2 n hll hnA
                            (fun e he => hrb e (List.mem_cons_of_mem lv he))
                            (fun dd hdd => hcl dd (htakeA ▸ hdd))
                          refine ⟨hpreA.trans hpreB, ?_⟩
                          intro r hr
                          rcases List.mem_append.mp hr with hr' | hr'
                          · obtain ⟨hge, dd, hmem, hget⟩ := hrefs1 r hr'
                            have hrlt : r < hA.cells.length := by
                              rcases List.getElem?_eq_some.mp hget with ⟨hh, _⟩
                              exact hh
                            refine ⟨hge, pgetD loc "site" PVal.null,
                              pgetD loc "city" PVal.null, pgetD loc "contact" PVal.null,
                              dd, hmem, ?_⟩
                            obtain ⟨u, hu⟩ := hpreB
                            rw [← hu, List.getElem?_append, if_pos hrlt]
                            exact hget
                          · obtain ⟨hge, s, c, t, dd, hmem, hget⟩ := hrefs2 r hr'
                            refine ⟨?_, s, c, t, dd, htakeA ▸ hmem, hget⟩
                            have : h.cells.length ≤ hA.cells.length := by
                              obtain ⟨u, hu⟩ := hpreA
                              rw [← hu, List.length_append]
                              omega
                            omega

/-- C8: `load_devices` does not mutate the original location or device
dicts — on a closed heap every pre-existing cell is unchanged after loading
(so the input document, which only reaches those cells, equals its value
before loading), and every returned record is a fresh cell holding an
enriched copy of a source device dict. -/
theorem load_devices_heap_frame (h : Heap) (data : PDict) (h2 : Heap) (refs : List Nat)
    (hc : h.Closed = true) (hd : dictRefsBelow h.cells.length data = true)
    (hl : load_devices_heap h data = some (h2, refs)) :
    (∀ a, a < h.cells.length → h2.cells[a]? = h.cells[a]?) ∧
    ∀ r ∈ refs, h.cells.length ≤ r ∧
      ∃ s c t dd, dd ∈ h.cells ∧ h2.cells[r]? = some (penrich s c t dd) := by
  simp only [load_devices_heap, Option.bind_eq_bind] at hl
  cases hloc : pyIterP (pgetD data "locations" (PVal.list [])) with
  | none => rw [hloc] at hl; simp at hl
  | some locs =>
      rw [hloc] at hl
      simp only [Option.some_bind] at hl
      have hlocrb : ∀ lv ∈ locs, ∀ a, lv = PVal.ref a → a < h.cells.length :=
        pyIterP_refsBelow hloc (pgetD_refsBelow "locations" hd)
      have hcl : ∀ dd ∈ h.cells.take h.cells.length, dictRefsBelow h.cells.length dd = true := by
        rw [List.take_length]
        rw [Heap.Closed, List.all_eq_true] at hc
        exact hc
      obtain ⟨hpre, hrefs⟩ := loadLocsH_spec locs h h2 refs h.cells.length hl
        (le_refl _) hlocrb hcl
      constructor
      · intro a ha
        obtain ⟨u, hu⟩ := hpre
        rw [← hu, List.getElem?_append, if_pos ha]
      · intro r hr
        obtain ⟨hge, s, c, t, dd, hmem, hget⟩ := hrefs r hr
        rw [List.take_length] at hmem
        exact ⟨hge, s, c, t, dd, hmem, hget⟩

/-- C8 at a concrete input: one location dict (cell 0) with one device dict
(cell 1). -/
def heapW : Heap :=
  ⟨[[("site", PVal.str "HQ"), ("city", PVal.null), ("contact", PVal.null),
     ("devices", PVal.list [PVal.ref 1])],
    [("hostname", PVal.str "sw1")]]⟩

def dataW : PDict := [("locations", PVal.list [PVal.ref 0])]

theorem load_devices_heap_frame_w :
    (∀ a, a < heapW.cells.length →
      (⟨heapW.cells ++ [penrich (PVal.str "HQ") PVal.null PVal.null
        [("hostname", PVal.str "sw1")]]⟩ : Heap).cells[a]? = heapW.cells[a]?) ∧
    ∀ r ∈ [heapW.cells.length],
      heapW.cells.length ≤ r ∧ ∃ s c t dd, dd ∈ heapW.cells ∧
        (⟨heapW.cells ++ [penrich (PVal.str "HQ") PVal.null PVal.null
          [("hostname", PVal.str "sw1")]]⟩ : Heap).cells[r]? =
          some (penrich s c t dd) :=
  load_devices_heap_frame heapW dataW _ _ rfl rfl rfl
